import Mathlib

/-!
Shallow embedding of the PNGCrypt chunk engine (src/chunk_type.rs and
src/chunk.rs). Byte buffers are `List Nat` whose entries stand for `u8`
values; 32-bit machine integers are `Nat` with explicit `% 2^32` at the
points where the Rust code narrows (`as u32`).  Rust slice indexing
`value[a..b]` panics when out of range; the parser below models that
panic as the distinguished outcome `ParseOutcome.outOfBounds`.
-/

namespace PNGCrypt

/-- Big-endian decoding of a byte list, as `u32::from_be_bytes` does for a
4-byte array (generalised to any list by the natural fold). -/
def u32_from_be_bytes (l : List Nat) : Nat :=
  l.foldl (fun acc b => acc * 256 + b) 0

/-- Big-endian encoding of a 32-bit value, as `u32::to_be_bytes`. -/
def u32_to_be_bytes (n : Nat) : List Nat :=
  [n / 2 ^ 24 % 256, n / 2 ^ 16 % 256, n / 2 ^ 8 % 256, n % 256]

/-- One bit step of the reflected CRC-32/IEEE algorithm used by
`crc::crc32::checksum_ieee`: shift right, conditionally xor the reversed
polynomial 0xEDB88320. -/
def crc32Step (c : Nat) : Nat :=
  if c % 2 = 1 then (c / 2) ^^^ 0xEDB88320 else c / 2

/-- Fold one input byte into the CRC accumulator (8 bit steps). -/
def crc32Byte (c b : Nat) : Nat :=
  crc32Step^[8] (c ^^^ b)

/-- CRC-32/IEEE of a byte sequence: init 0xFFFFFFFF, byte-wise folding,
final xor 0xFFFFFFFF.  This is `crc32::checksum_ieee` of the `crc` crate. -/
def crc32 (data : List Nat) : Nat :=
  (data.foldl crc32Byte 0xFFFFFFFF) ^^^ 0xFFFFFFFF

/-- `ChunkType` from src/chunk_type.rs: a `[u8; 4]`, modelled as four byte
fields. -/
structure ChunkType where
  b0 : Nat
  b1 : Nat
  b2 : Nat
  b3 : Nat
deriving DecidableEq

/-- The `bytes` field viewed as the 4-byte list it denotes. -/
def ChunkType.bytes (t : ChunkType) : List Nat :=
  [t.b0, t.b1, t.b2, t.b3]

/-- `ChunkTypeError` from src/chunk_type.rs.  `InvalidChunkType` carries the
offending input, kept as its byte list (the Rust code carries the `String`). -/
inductive ChunkTypeError where
  | inconsistentByteLength (len : Nat)
  | invalidChunkType (s : List Nat)
deriving DecidableEq

/-- `TryFrom<[u8; 4]> for ChunkType`: always succeeds, stores the bytes
verbatim. -/
def ChunkType.tryFromBytes (a b c d : Nat) : ChunkType :=
  ⟨a, b, c, d⟩

/-- `FromStr for ChunkType` (src/chunk_type.rs lines 45-65), on the UTF-8
bytes of the input string: first the all-letters check, then the length-4
check, then construction from the first four bytes. -/
def ChunkType.from_str (values : List Nat) : Except ChunkTypeError ChunkType :=
  if ¬ (values.all fun elem => (65 ≤ elem && elem ≤ 90) || (97 ≤ elem && elem ≤ 122)) then
    .error (.invalidChunkType values)
  else if values.length ≠ 4 then
    .error (.inconsistentByteLength values.length)
  else
    .ok (ChunkType.tryFromBytes (values.getD 0 0) (values.getD 1 0)
      (values.getD 2 0) (values.getD 3 0))

/-- `ChunkType::is_critical`: byte 0 is an uppercase ASCII letter. -/
def ChunkType.is_critical (t : ChunkType) : Bool :=
  65 ≤ t.b0 && t.b0 ≤ 90

/-- `ChunkType::is_public`: byte 1 is an uppercase ASCII letter. -/
def ChunkType.is_public (t : ChunkType) : Bool :=
  65 ≤ t.b1 && t.b1 ≤ 90

/-- `ChunkType::is_reserved_bit_valid`: byte 2 is an uppercase ASCII letter. -/
def ChunkType.is_reserved_bit_valid (t : ChunkType) : Bool :=
  65 ≤ t.b2 && t.b2 ≤ 90

/-- `ChunkType::is_safe_to_copy`: byte 3 is a lowercase ASCII letter. -/
def ChunkType.is_safe_to_copy (t : ChunkType) : Bool :=
  97 ≤ t.b3 && t.b3 ≤ 122

/-- `ChunkType::is_valid`: all four bytes are ASCII letters and the reserved
bit (byte 2) is uppercase. -/
def ChunkType.is_valid (t : ChunkType) : Bool :=
  (t.bytes.all fun elem => (65 ≤ elem && elem ≤ 90) || (97 ≤ elem && elem ≤ 122))
    && t.is_reserved_bit_valid

/-- A UTF-8 continuation byte (0x80..0xBF). -/
def isUtf8Cont (b : Nat) : Bool :=
  128 ≤ b && b ≤ 191

/-- Well-formed UTF-8 byte sequences, exactly as `std::str::from_utf8`
accepts them (RFC 3629: no overlong forms, no surrogates, nothing above
U+10FFFF).  `ChunkType`'s `Display` (src/chunk_type.rs line 71) calls
`from_utf8(&self.bytes).unwrap()`, which panics when this is false. -/
def isUtf8 : List Nat → Bool
  | [] => true
  | b :: rest =>
    if b ≤ 127 then isUtf8 rest
    else if 194 ≤ b && b ≤ 223 then
      match rest with
      | c1 :: rest2 => isUtf8Cont c1 && isUtf8 rest2
      | [] => false
    else if b = 224 then
      match rest with
      | c1 :: c2 :: rest2 => (160 ≤ c1 && c1 ≤ 191) && isUtf8Cont c2 && isUtf8 rest2
      | _ => false
    else if (225 ≤ b && b ≤ 236) || (238 ≤ b && b ≤ 239) then
      match rest with
      | c1 :: c2 :: rest2 => isUtf8Cont c1 && isUtf8Cont c2 && isUtf8 rest2
      | _ => false
    else if b = 237 then
      match rest with
      | c1 :: c2 :: rest2 => (128 ≤ c1 && c1 ≤ 159) && isUtf8Cont c2 && isUtf8 rest2
      | _ => false
    else if b = 240 then
      match rest with
      | c1 :: c2 :: c3 :: rest2 =>
        (144 ≤ c1 && c1 ≤ 191) && isUtf8Cont c2 && isUtf8Cont c3 && isUtf8 rest2
      | _ => false
    else if 241 ≤ b && b ≤ 243 then
      match rest with
      | c1 :: c2 :: c3 :: rest2 =>
        isUtf8Cont c1 && isUtf8Cont c2 && isUtf8Cont c3 && isUtf8 rest2
      | _ => false
    else if b = 244 then
      match rest with
      | c1 :: c2 :: c3 :: rest2 =>
        (128 ≤ c1 && c1 ≤ 143) && isUtf8Cont c2 && isUtf8Cont c3 && isUtf8 rest2
      | _ => false
    else false

/-- `Chunk` from src/chunk.rs: type code, payload, declared length (`u32`),
crc (`u32`). -/
structure Chunk where
  chunk_type : ChunkType
  data : List Nat
  length : Nat
  crc : Nat
deriving DecidableEq

/-- `ChunkError` from src/chunk.rs. `InvalidChunkType` carries the type
code's rendering, kept as its byte list. -/
inductive ChunkError where
  | invalidCrc (crc : Nat)
  | invalidLength (length : Nat)
  | invalidChunkType (s : List Nat)
deriving DecidableEq

/-- Outcome of `Chunk::try_from`: success, one of the `ChunkError` variants,
or one of its two reachable Rust panics, modelled explicitly.
`outOfBounds` is the panic from an out-of-range slice `value[a..b]`;
`utf8Abort` is the panic inside the `InvalidChunkType` error construction:
`chunk_type.to_string()` (src/chunk.rs line 70) runs `ChunkType`'s `Display`,
whose `from_utf8(&self.bytes).unwrap()` (src/chunk_type.rs line 71) panics
when the four type bytes are not valid UTF-8. -/
inductive ParseOutcome where
  | ok (c : Chunk)
  | err (e : ChunkError)
  | outOfBounds
  | utf8Abort
deriving DecidableEq

/-- Rust slice `value[a..b]` (for `a ≤ b ≤ value.len()`, the only case the
parser reaches after its bounds guards). -/
def slice (value : List Nat) (a b : Nat) : List Nat :=
  (value.take b).drop a

/-- `TryFrom<&[u8]> for Chunk` (src/chunk.rs lines 43-80).  The source's
slice expressions, in evaluation order, are `value[0..4]`, `value[4..8]`,
`value[4..dli]`, `value[8..dli]`, `value[dli..dli+4]` with
`dli = length + 8`; every out-of-range one is a panic, modelled by an
explicit bound guard placed where the source's slice is evaluated.
`ChunkType::try_from` on the 4 type bytes never fails, and `as u32` casts
are `% 2^32`.  In the invalid-type branch the source builds the error via
`chunk_type.to_string()`, which panics (`utf8Abort`) when the type bytes are
not valid UTF-8. -/
def Chunk.try_from (value : List Nat) : ParseOutcome :=
  if value.length < 4 then .outOfBounds else
  let length := u32_from_be_bytes (slice value 0 4)
  if value.length < 8 then .outOfBounds else
  let chunk_type_data := slice value 4 8
  let chunk_type : ChunkType :=
    ChunkType.tryFromBytes (chunk_type_data.getD 0 0) (chunk_type_data.getD 1 0)
      (chunk_type_data.getD 2 0) (chunk_type_data.getD 3 0)
  let data_last_index := length + 4 + 4
  if value.length < data_last_index then .outOfBounds else
  let crc := crc32 (slice value 4 data_last_index)
  let data := slice value 8 data_last_index
  if value.length < data_last_index + 4 then .outOfBounds else
  if crc ≠ u32_from_be_bytes (slice value data_last_index (data_last_index + 4)) then
    .err (.invalidCrc crc)
  else if data.length ≠ length then
    .err (.invalidLength (length % 2 ^ 32))
  else if ¬ chunk_type.is_valid then
    if isUtf8 chunk_type.bytes then .err (.invalidChunkType chunk_type.bytes)
    else .utf8Abort
  else
    .ok { chunk_type := chunk_type, data := data, length := length % 2 ^ 32, crc := crc }

/-- `Chunk::as_bytes` (src/chunk.rs lines 106-115): successive
`extend_from_slice` of length (big-endian), type bytes, payload, crc
(big-endian) onto an empty vector. -/
def Chunk.as_bytes (c : Chunk) : List Nat :=
  (((([] : List Nat) ++ u32_to_be_bytes c.length) ++ c.chunk_type.bytes) ++ c.data)
    ++ u32_to_be_bytes c.crc

/-- `Chunk::new` (src/chunk.rs lines 117-134): length is `data.len() as u32`,
crc is CRC-32/IEEE over type bytes chained with the payload. -/
def Chunk.new (chunk_type : ChunkType) (data : List Nat) : Chunk :=
  let length := data.length % 2 ^ 32
  let chained := chunk_type.bytes ++ data
  let crc := crc32 chained
  { chunk_type := chunk_type, data := data, length := length, crc := crc }

/-- The declared length a parse reads: the big-endian `u32` in the first four
bytes of the buffer. -/
def Chunk.declared_length (value : List Nat) : Nat :=
  u32_from_be_bytes (slice value 0 4)

/-- The type code a parse reconstructs from bytes 4..8 of the buffer. -/
def Chunk.parsed_type (value : List Nat) : ChunkType :=
  ChunkType.tryFromBytes ((slice value 4 8).getD 0 0) ((slice value 4 8).getD 1 0)
    ((slice value 4 8).getD 2 0) ((slice value 4 8).getD 3 0)

/-! ### Helper lemmas -/

@[simp] lemma u32_to_be_bytes_length (n : Nat) : (u32_to_be_bytes n).length = 4 := rfl

@[simp] lemma ChunkType.bytes_length (t : ChunkType) : t.bytes.length = 4 := rfl

lemma u32_from_to_be_bytes (n : Nat) :
    u32_from_be_bytes (u32_to_be_bytes n) = n % 2 ^ 32 := by
  simp only [u32_to_be_bytes, u32_from_be_bytes, List.foldl]
  omega

lemma xor_lt_two_pow_32 {x y : Nat} (hx : x < 2 ^ 32) (hy : y < 2 ^ 32) :
    x ^^^ y < 2 ^ 32 :=
  Nat.bitwise_lt_two_pow hx hy

lemma crc32Step_lt {c : Nat} (h : c < 2 ^ 32) : crc32Step c < 2 ^ 32 := by
  unfold crc32Step
  split
  · exact xor_lt_two_pow_32 (by omega) (by norm_num)
  · omega

lemma crc32Step_iterate_lt (k : Nat) {c : Nat} (h : c < 2 ^ 32) :
    crc32Step^[k] c < 2 ^ 32 := by
  induction k generalizing c with
  | zero => simpa using h
  | succ k ih =>
    rw [Function.iterate_succ_apply]
    exact ih (crc32Step_lt h)

lemma crc32Byte_lt {c b : Nat} (hc : c < 2 ^ 32) (hb : b < 2 ^ 32) :
    crc32Byte c b < 2 ^ 32 :=
  crc32Step_iterate_lt 8 (xor_lt_two_pow_32 hc hb)

lemma crc32_foldl_lt {l : List Nat} (hl : ∀ b ∈ l, b < 2 ^ 32) {c : Nat}
    (hc : c < 2 ^ 32) : l.foldl crc32Byte c < 2 ^ 32 := by
  induction l generalizing c with
  | nil => simpa using hc
  | cons x xs ih =>
    rw [List.foldl_cons]
    exact ih (fun b hb => hl b (List.mem_cons_of_mem _ hb))
      (crc32Byte_lt hc (hl x (List.mem_cons_self _ _)))

lemma crc32_lt {l : List Nat} (hl : ∀ b ∈ l, b < 2 ^ 32) : crc32 l < 2 ^ 32 :=
  xor_lt_two_pow_32 (crc32_foldl_lt hl (by norm_num)) (by norm_num)

lemma slice_prefix (m r : List Nat) (b : Nat) (hb : m.length = b) :
    slice (m ++ r) 0 b = m := by
  simp [slice, List.take_left' hb]

lemma slice_append_mid (p m r : List Nat) :
    slice (p ++ (m ++ r)) p.length (p.length + m.length) = m := by
  unfold slice
  rw [List.take_append_eq_append_take, List.take_of_length_le (by simp),
    List.take_append_eq_append_take, List.take_of_length_le (by omega),
    List.drop_append_eq_append_drop]
  simp

lemma slice_append_of_le_length (l r : List Nat) (a b : Nat) (h : b ≤ l.length) :
    slice (l ++ r) a b = slice l a b := by
  unfold slice
  rw [List.take_append_of_le_length h]

lemma length_slice (v : List Nat) (a b : Nat) (hb : b ≤ v.length) :
    (slice v a b).length = b - a := by
  simp [slice]
  omega

lemma slice_adjacent (v : List Nat) (a b c : Nat) (hab : a ≤ b) (hbc : b ≤ c) :
    slice v a b ++ slice v b c = slice v a c := by
  unfold slice
  rw [List.drop_take, List.drop_take, List.drop_take,
    show v.drop b = (v.drop a).drop (b - a) by rw [List.drop_drop]; congr 1; omega,
    ← List.take_add]
  congr 1
  omega

/-- For a buffer holding a complete record (at least `L + 12` bytes, `L` the
declared length), `Chunk.try_from` reaches no out-of-range slice, its payload
slice has exactly `L` bytes (so the `InvalidLength` branch is dead), and the
result is the crc check, then the type-validity check — whose error
construction panics when the type bytes are not valid UTF-8 — then success. -/
lemma try_from_complete (value : List Nat) (L : Nat)
    (hL : Chunk.declared_length value = L) (hlen : L + 12 ≤ value.length) :
    Chunk.try_from value =
      if crc32 (slice value 4 (L + 8)) ≠ u32_from_be_bytes (slice value (L + 8) (L + 12)) then
        .err (.invalidCrc (crc32 (slice value 4 (L + 8))))
      else if ¬ (Chunk.parsed_type value).is_valid then
        (if isUtf8 (Chunk.parsed_type value).bytes then
          .err (.invalidChunkType (Chunk.parsed_type value).bytes)
        else .utf8Abort)
      else
        .ok { chunk_type := Chunk.parsed_type value, data := slice value 8 (L + 8),
              length := L % 2 ^ 32, crc := crc32 (slice value 4 (L + 8)) } := by
  have hdl : (slice value 8 (L + 8)).length = L :=
    (length_slice value 8 (L + 8) (by omega)).trans (by omega)
  rw [Chunk.declared_length] at hL
  simp only [Chunk.try_from, hL]
  rw [if_neg (show ¬ value.length < 4 by omega),
    if_neg (show ¬ value.length < 8 by omega),
    if_neg (show ¬ value.length < L + 4 + 4 by omega),
    if_neg (show ¬ value.length < L + 4 + 4 + 4 by omega),
    show L + 4 + 4 = L + 8 by omega, show L + 8 + 4 = L + 12 by omega, hdl]
  simp only [Chunk.parsed_type, ChunkType.tryFromBytes, ne_eq, not_true_eq_false,
    if_false, ite_not]

/-- For a buffer too short to hold the record its length field declares,
`Chunk.try_from` hits an out-of-range slice (a Rust panic). -/
lemma try_from_oob (value : List Nat) (L : Nat)
    (hL : Chunk.declared_length value = L) (hlen : value.length < L + 12) :
    Chunk.try_from value = .outOfBounds := by
  rw [Chunk.declared_length] at hL
  simp only [Chunk.try_from, hL]
  split_ifs <;> rfl

lemma Chunk.new_length (t : ChunkType) (d : List Nat) :
    (Chunk.new t d).length = d.length % 2 ^ 32 := rfl

lemma slice_append_mid' (p m r v : List Nat) (a b : Nat)
    (hv : v = p ++ (m ++ r)) (ha : p.length = a) (hb : a + m.length = b) :
    slice v a b = m := by
  subst hv
  subst ha
  subst hb
  exact slice_append_mid p m r

/-! ### Claim theorems -/

/-- C3: `ChunkType::from_str` fails with `InvalidChunkType` whenever some byte
is not an ASCII letter, fails with `InconsistentByteLength` on all-letter
inputs whose length is not 4 (the letter check runs before the length check),
and succeeds on any 4-byte all-letter input with a code wrapping those
bytes. -/
theorem C3_from_str_checks (values : List Nat) :
    ((∃ b ∈ values, ¬ ((65 ≤ b ∧ b ≤ 90) ∨ (97 ≤ b ∧ b ≤ 122))) →
      ChunkType.from_str values = .error (.invalidChunkType values)) ∧
    ((∀ b ∈ values, (65 ≤ b ∧ b ≤ 90) ∨ (97 ≤ b ∧ b ≤ 122)) →
      values.length ≠ 4 →
      ChunkType.from_str values = .error (.inconsistentByteLength values.length)) ∧
    (∀ a b c d : Nat, values = [a, b, c, d] →
      (∀ x ∈ values, (65 ≤ x ∧ x ≤ 90) ∨ (97 ≤ x ∧ x ≤ 122)) →
      ChunkType.from_str values = .ok ⟨a, b, c, d⟩) := by
  refine ⟨fun ⟨b, hb, hnb⟩ => ?_, fun hall hlen => ?_, fun a b c d hv hall => ?_⟩
  · have hfalse : (values.all fun elem =>
        (65 ≤ elem && elem ≤ 90) || (97 ≤ elem && elem ≤ 122)) = false := by
      rw [List.all_eq_false]
      exact ⟨b, hb, by simpa using hnb⟩
    simp [ChunkType.from_str, hfalse]
  · have htrue : (values.all fun elem =>
        (65 ≤ elem && elem ≤ 90) || (97 ≤ elem && elem ≤ 122)) = true := by
      rw [List.all_eq_true]
      intro x hx
      simpa using hall x hx
    simp [ChunkType.from_str, htrue, hlen]
  · subst hv
    have htrue : (([a, b, c, d]).all fun elem =>
        (65 ≤ elem && elem ≤ 90) || (97 ≤ elem && elem ≤ 122)) = true := by
      rw [List.all_eq_true]
      intro x hx
      simpa using hall x hx
    simp [ChunkType.from_str, htrue, ChunkType.tryFromBytes]

/-- C3 witness: the repository's own type code text "RuSt" parses to the code
wrapping its four bytes. -/
theorem C3_witness : ChunkType.from_str [82, 117, 83, 116] = .ok ⟨82, 117, 83, 116⟩ :=
  (C3_from_str_checks [82, 117, 83, 116]).2.2 82 117 83 116 rfl (by decide)

/-- C5: `is_valid` holds iff all four bytes are ASCII letters and byte 2 is
uppercase; the code "Rust" (third letter lowercase) constructs successfully
from text yet is not valid. -/
theorem C5_is_valid_iff :
    (∀ t : ChunkType, t.is_valid = true ↔
      ((∀ b ∈ t.bytes, (65 ≤ b ∧ b ≤ 90) ∨ (97 ≤ b ∧ b ≤ 122)) ∧
        65 ≤ t.b2 ∧ t.b2 ≤ 90)) ∧
    ChunkType.from_str [82, 117, 115, 116] = .ok ⟨82, 117, 115, 116⟩ ∧
    ChunkType.is_valid ⟨82, 117, 115, 116⟩ = false := by
  refine ⟨fun t => ?_, rfl, by decide⟩
  simp [ChunkType.is_valid, ChunkType.is_reserved_bit_valid, and_assoc]

/-- C6 (amended): `Chunk::new` is total, keeps the type and payload verbatim,
stores `payload length mod 2^32` (the `as u32` cast; equal to the byte count
for payloads shorter than 2^32 bytes), and stores the CRC-32/IEEE of type
bytes followed by payload. -/
theorem C6_new_consistent (t : ChunkType) (d : List Nat) :
    (Chunk.new t d).chunk_type = t ∧ (Chunk.new t d).data = d ∧
    (Chunk.new t d).length = d.length % 2 ^ 32 ∧
    (Chunk.new t d).crc = crc32 (t.bytes ++ d) :=
  ⟨rfl, rfl, rfl, rfl⟩

/-- C6 counterexample: for a payload of exactly 2^32 bytes the stored length
is 0, not the byte count — the `as u32` cast truncates. -/
theorem C6_counterexample :
    (Chunk.new ⟨82, 117, 83, 116⟩ (List.replicate (2 ^ 32) 0)).length ≠
      (List.replicate (2 ^ 32) 0).length := by
  norm_num [Chunk.new]

/-- C7: `as_bytes` is the concatenation of the stored length in 4 big-endian
bytes, the type code's raw bytes, the payload, and the stored crc in 4
big-endian bytes, in that order. -/
theorem C7_as_bytes_layout (c : Chunk) :
    c.as_bytes = u32_to_be_bytes c.length ++ c.chunk_type.bytes ++ c.data ++
      u32_to_be_bytes c.crc := by
  simp [Chunk.as_bytes]

/-- C8: each classification predicate reads exactly one byte: byte 0
uppercase for critical, byte 1 uppercase for public, byte 2 uppercase for
reserved-bit-valid, byte 3 lowercase for safe-to-copy. -/
theorem C8_case_predicates (t : ChunkType) :
    (t.is_critical = true ↔ 65 ≤ t.bytes.getD 0 0 ∧ t.bytes.getD 0 0 ≤ 90) ∧
    (t.is_public = true ↔ 65 ≤ t.bytes.getD 1 0 ∧ t.bytes.getD 1 0 ≤ 90) ∧
    (t.is_reserved_bit_valid = true ↔ 65 ≤ t.bytes.getD 2 0 ∧ t.bytes.getD 2 0 ≤ 90) ∧
    (t.is_safe_to_copy = true ↔ 97 ≤ t.bytes.getD 3 0 ∧ t.bytes.getD 3 0 ≤ 122) := by
  simp [ChunkType.is_critical, ChunkType.is_public, ChunkType.is_reserved_bit_valid,
    ChunkType.is_safe_to_copy, ChunkType.bytes]

/-- C10 counterexample: a complete 12-byte record (declared length 0) whose
type bytes `[255,255,255,255]` are not valid UTF-8 and whose stored crc
matches the computed one keeps every slice index in bounds, yet parse does
not return `Ok` or an error variant: the `InvalidChunkType` construction
panics in `to_string`'s `from_utf8().unwrap()`. -/
theorem C10_counterexample :
    Chunk.declared_length [0, 0, 0, 0, 255, 255, 255, 255, 255, 255, 255, 255] + 12 ≤
      ([0, 0, 0, 0, 255, 255, 255, 255, 255, 255, 255, 255] : List Nat).length ∧
    Chunk.try_from [0, 0, 0, 0, 255, 255, 255, 255, 255, 255, 255, 255] =
      .utf8Abort := by
  decide

/-- C10 (amended): on inputs shorter than `L + 12` bytes (`L` the declared
length in the first four bytes) a slice index is out of bounds — a Rust
panic, not an error.  On inputs of at least `L + 12` bytes every slice index
is in bounds and parse returns `Ok` or one of its error variants, except in
one case: when the stored crc matches the computed one and the type code
fails `is_valid` and its four bytes are not valid UTF-8, the error
construction itself panics in `to_string`'s `from_utf8().unwrap()`; the
`utf8Abort` outcome occurs only in exactly that situation. -/
theorem C10_parse_bounds (value : List Nat) :
    (value.length < Chunk.declared_length value + 12 →
      Chunk.try_from value = .outOfBounds) ∧
    (Chunk.declared_length value + 12 ≤ value.length →
      (∃ c, Chunk.try_from value = .ok c) ∨ (∃ e, Chunk.try_from value = .err e) ∨
        Chunk.try_from value = .utf8Abort) ∧
    (Chunk.try_from value = .utf8Abort →
      Chunk.declared_length value + 12 ≤ value.length ∧
      crc32 (slice value 4 (Chunk.declared_length value + 8)) =
        u32_from_be_bytes (slice value (Chunk.declared_length value + 8)
          (Chunk.declared_length value + 12)) ∧
      (Chunk.parsed_type value).is_valid = false ∧
      isUtf8 (Chunk.parsed_type value).bytes = false) := by
  refine ⟨fun h => try_from_oob value _ rfl h, fun h => ?_, fun h => ?_⟩
  · rw [try_from_complete value _ rfl h]
    split_ifs
    · exact Or.inr (Or.inl ⟨_, rfl⟩)
    · exact Or.inl ⟨_, rfl⟩
    · exact Or.inr (Or.inl ⟨_, rfl⟩)
    · exact Or.inr (Or.inr rfl)
  · rcases Nat.lt_or_ge value.length (Chunk.declared_length value + 12) with hlt | hge
    · rw [try_from_oob value _ rfl hlt] at h
      exact absurd h (by simp)
    · rw [try_from_complete value _ rfl hge] at h
      split_ifs at h with h1 h2 h3
      exact ⟨hge, not_not.mp h1, Bool.eq_false_iff.mpr h2, Bool.eq_false_iff.mpr h3⟩

/-- C10 witness: a 4-byte input declaring a 1-byte payload is shorter than
the record it declares, so parse hits an out-of-bounds slice. -/
theorem C10_witness :
    Chunk.try_from [0, 0, 0, 1] = ParseOutcome.outOfBounds :=
  (C10_parse_bounds [0, 0, 0, 1]).1 (by decide)

/-- C2 (amended): the `InvalidLength` error is unreachable: whenever every
slice access is in bounds the payload slice has exactly the declared length,
so the length check never fires; a buffer whose declared length exceeds the
bytes present panics on slice indexing instead. -/
theorem C2_invalid_length_never (value : List Nat) (L : Nat) :
    Chunk.try_from value ≠ .err (.invalidLength L) := by
  rcases Nat.lt_or_ge value.length (Chunk.declared_length value + 12) with h | h
  · rw [try_from_oob value _ rfl h]
    simp
  · rw [try_from_complete value _ rfl h]
    split_ifs <;> simp

/-- C2 counterexample: a buffer declaring a 1-byte payload but holding only a
complete 0-payload record (12 bytes) makes `try_from` hit an out-of-bounds
slice (panic); it does not fail with `InvalidLength(1)`. -/
theorem C2_counterexample :
    Chunk.try_from [0, 0, 0, 1, 82, 117, 83, 116, 0, 0, 0, 0] = .outOfBounds ∧
    Chunk.try_from [0, 0, 0, 1, 82, 117, 83, 116, 0, 0, 0, 0] ≠
      .err (.invalidLength 1) := by
  decide

/-- C9: parsing only looks at the first `L + 12` bytes: appending any suffix
to a buffer that already holds a complete record leaves the parse result
unchanged. -/
theorem C9_trailing_bytes_ignored (b s : List Nat)
    (h : Chunk.declared_length b + 12 ≤ b.length) :
    Chunk.try_from (b ++ s) = Chunk.try_from b := by
  have hds : ∀ x y : Nat, y ≤ b.length → slice (b ++ s) x y = slice b x y :=
    fun x y hy => slice_append_of_le_length b s x y hy
  have hL : Chunk.declared_length (b ++ s) = Chunk.declared_length b := by
    unfold Chunk.declared_length
    rw [hds 0 4 (by omega)]
  have hpt : Chunk.parsed_type (b ++ s) = Chunk.parsed_type b := by
    unfold Chunk.parsed_type
    rw [hds 4 8 (by omega)]
  have hlen2 : Chunk.declared_length b + 12 ≤ (b ++ s).length := by
    rw [List.length_append]
    omega
  rw [try_from_complete (b ++ s) (Chunk.declared_length b) hL hlen2,
    try_from_complete b (Chunk.declared_length b) rfl h,
    hds 4 (Chunk.declared_length b + 8) (by omega),
    hds (Chunk.declared_length b + 8) (Chunk.declared_length b + 12) (by omega),
    hds 8 (Chunk.declared_length b + 8) (by omega), hpt]

/-- C9 witness: a 12-byte record with a trailing byte parses identically to
the record alone. -/
theorem C9_witness :
    Chunk.try_from ([0, 0, 0, 0, 0, 0, 0, 0, 0, 0, 0, 0] ++ [7]) =
      Chunk.try_from [0, 0, 0, 0, 0, 0, 0, 0, 0, 0, 0, 0] :=
  C9_trailing_bytes_ignored _ _ (by decide)

/-- C4: the crc stored after the payload is compared against the CRC-32/IEEE
of the type bytes followed by the payload bytes; a mismatch yields
`InvalidCrc(computed)` before the length or type-validity checks are
reached (no assumption on those is needed). -/
theorem C4_crc_checked_first (value : List Nat) (L : Nat)
    (hL : Chunk.declared_length value = L)
    (hlen : L + 12 ≤ value.length)
    (hcrc : crc32 (slice value 4 8 ++ slice value 8 (L + 8)) ≠
      u32_from_be_bytes (slice value (L + 8) (L + 12))) :
    Chunk.try_from value =
      .err (.invalidCrc (crc32 (slice value 4 8 ++ slice value 8 (L + 8)))) := by
  rw [slice_adjacent value 4 8 (L + 8) (by omega) (by omega)] at hcrc ⊢
  rw [try_from_complete value L hL hlen, if_pos hcrc]

/-- C4 witness: a 12-byte record with an invalid type code and a wrong crc
fails with the computed crc, showing the crc check precedes the type check. -/
theorem C4_witness :
    Chunk.try_from [0, 0, 0, 0, 0, 0, 0, 0, 9, 9, 9, 9] =
      .err (.invalidCrc 558161692) := by
  have h := C4_crc_checked_first [0, 0, 0, 0, 0, 0, 0, 0, 9, 9, 9, 9] 0 (by decide)
    (by decide) (by decide)
  rw [h]
  decide

/-- A record with declared length 0 whose type bytes are "RuSt" and whose
next four bytes are zero fails the crc comparison with the computed crc of
the type bytes, whatever follows. -/
lemma try_from_zero_len_ruSt (tail : List Nat) :
    Chunk.try_from ([0, 0, 0, 0] ++ ([82, 117, 83, 116] ++ ([0, 0, 0, 0] ++ tail))) =
      .err (.invalidCrc (crc32 [82, 117, 83, 116])) := by
  have h04 : slice ([0, 0, 0, 0] ++ ([82, 117, 83, 116] ++ ([0, 0, 0, 0] ++ tail))) 0 4 =
      [0, 0, 0, 0] := slice_prefix _ _ 4 rfl
  have h48 : slice ([0, 0, 0, 0] ++ ([82, 117, 83, 116] ++ ([0, 0, 0, 0] ++ tail))) 4 8 =
      [82, 117, 83, 116] :=
    slice_append_mid' [0, 0, 0, 0] [82, 117, 83, 116] ([0, 0, 0, 0] ++ tail) _ 4 8
      rfl rfl rfl
  have h812 : slice ([0, 0, 0, 0] ++ ([82, 117, 83, 116] ++ ([0, 0, 0, 0] ++ tail))) 8 12 =
      [0, 0, 0, 0] :=
    slice_append_mid' ([0, 0, 0, 0] ++ [82, 117, 83, 116]) [0, 0, 0, 0] tail _ 8 12
      (by simp) (by simp) (by simp)
  have hL : Chunk.declared_length ([0, 0, 0, 0] ++ ([82, 117, 83, 116] ++ ([0, 0, 0, 0] ++ tail))) = 0 := by
    rw [Chunk.declared_length, h04]
    rfl
  have hlen : (0 : Nat) + 12 ≤ ([0, 0, 0, 0] ++ ([82, 117, 83, 116] ++ ([0, 0, 0, 0] ++ tail))).length := by
    simp [List.length_append]
  rw [try_from_complete _ 0 hL hlen]
  simp only [Nat.zero_add]
  rw [h48, h812, if_pos (by decide)]

/-- C1 counterexample: the round-trip fails as stated, in two ways. With the
type code built from the raw bytes `[0,0,0,0]` (accepted by construction) and
an empty payload, parsing the serialized chunk rejects it as an invalid type.
With the valid type "RuSt" and a payload of exactly 2^32 bytes, the `as u32`
length truncation makes the parse read back a 0-length payload and fail the
crc comparison, so the parse does not return the original chunk. -/
theorem C1_counterexample :
    Chunk.try_from (Chunk.as_bytes (Chunk.new ⟨0, 0, 0, 0⟩ [])) =
      .err (.invalidChunkType [0, 0, 0, 0]) ∧
    Chunk.try_from (Chunk.as_bytes (Chunk.new ⟨82, 117, 83, 116⟩ (List.replicate (2 ^ 32) 0))) ≠
      .ok (Chunk.new ⟨82, 117, 83, 116⟩ (List.replicate (2 ^ 32) 0)) := by
  constructor
  · decide
  · have hrep : List.replicate (2 ^ 32) (0 : Nat) =
        [0, 0, 0, 0] ++ List.replicate (2 ^ 32 - 4) 0 := by
      nth_rewrite 1 [show (2 ^ 32 : Nat) = 4 + (2 ^ 32 - 4) by norm_num]
      rw [List.replicate_add]
      rfl
    obtain ⟨K, hK⟩ : ∃ K, (Chunk.new ⟨82, 117, 83, 116⟩ (List.replicate (2 ^ 32) 0)).crc = K :=
      ⟨_, rfl⟩
    have hlenf : (Chunk.new ⟨82, 117, 83, 116⟩ (List.replicate (2 ^ 32) 0)).length = 0 := by
      rw [Chunk.new_length, List.length_replicate, Nat.mod_self]
    have hct : (Chunk.new ⟨82, 117, 83, 116⟩ (List.replicate (2 ^ 32) 0)).chunk_type.bytes
        = [82, 117, 83, 116] := rfl
    have hdat : (Chunk.new ⟨82, 117, 83, 116⟩ (List.replicate (2 ^ 32) 0)).data
        = List.replicate (2 ^ 32) 0 := rfl
    have hv : (Chunk.new ⟨82, 117, 83, 116⟩ (List.replicate (2 ^ 32) 0)).as_bytes =
        [0, 0, 0, 0] ++ ([82, 117, 83, 116] ++
          ([0, 0, 0, 0] ++ (List.replicate (2 ^ 32 - 4) 0 ++ u32_to_be_bytes K))) := by
      simp only [Chunk.as_bytes, hlenf, hK, hct, hdat, List.nil_append]
      rw [hrep, show u32_to_be_bytes 0 = [0, 0, 0, 0] from rfl]
      simp only [List.append_assoc]
    rw [hv, try_from_zero_len_ruSt]
    exact fun h => ParseOutcome.noConfusion h

/-- C1 (amended): the round-trip `parse (as_bytes (new t d)) = new t d` holds
for every chunk built by `new` from a type code passing `is_valid` and a
payload of bytes shorter than 2^32 bytes; the parsed chunk agrees in type,
payload, length and crc (it is the same `Chunk` value). -/
theorem C1_roundtrip (t : ChunkType) (d : List Nat)
    (hvalid : t.is_valid = true)
    (hbytes : ∀ b ∈ d, b < 256)
    (hlen : d.length < 2 ^ 32) :
    Chunk.try_from (Chunk.as_bytes (Chunk.new t d)) = .ok (Chunk.new t d) := by
  have hmod : d.length % 2 ^ 32 = d.length := Nat.mod_eq_of_lt hlen
  have hKlt : crc32 (t.bytes ++ d) < 2 ^ 32 := by
    apply crc32_lt
    intro b hb
    rcases List.mem_append.mp hb with h | h
    · have hvalid' := hvalid
      unfold ChunkType.is_valid at hvalid'
      rw [Bool.and_eq_true, List.all_eq_true] at hvalid'
      have hb2 := hvalid'.1 b h
      simp only [Bool.or_eq_true, Bool.and_eq_true, decide_eq_true_eq] at hb2
      omega
    · exact lt_trans (hbytes b h) (by norm_num)
  have hveq : Chunk.as_bytes (Chunk.new t d) =
      u32_to_be_bytes d.length ++ (t.bytes ++ (d ++ u32_to_be_bytes (crc32 (t.bytes ++ d)))) := by
    simp only [Chunk.as_bytes, Chunk.new, List.nil_append, List.append_assoc, hmod]
  have hvlen : (Chunk.as_bytes (Chunk.new t d)).length = d.length + 12 := by
    rw [hveq]
    simp only [List.length_append, u32_to_be_bytes_length, ChunkType.bytes_length]
    omega
  have h04 : slice (Chunk.as_bytes (Chunk.new t d)) 0 4 = u32_to_be_bytes d.length := by
    rw [hveq]
    exact slice_prefix _ _ 4 (by simp)
  have hL : Chunk.declared_length (Chunk.as_bytes (Chunk.new t d)) = d.length := by
    rw [Chunk.declared_length, h04, u32_from_to_be_bytes, hmod]
  have h48 : slice (Chunk.as_bytes (Chunk.new t d)) 4 8 = t.bytes :=
    slice_append_mid' (u32_to_be_bytes d.length) t.bytes
      (d ++ u32_to_be_bytes (crc32 (t.bytes ++ d))) _ 4 8 hveq (by simp) (by simp)
  have hcrcslice : slice (Chunk.as_bytes (Chunk.new t d)) 4 (d.length + 8) = t.bytes ++ d :=
    slice_append_mid' (u32_to_be_bytes d.length) (t.bytes ++ d)
      (u32_to_be_bytes (crc32 (t.bytes ++ d))) _ 4 (d.length + 8)
      (by rw [hveq]; simp [List.append_assoc]) (by simp)
      (by simp only [List.length_append, ChunkType.bytes_length]; omega)
  have hdata : slice (Chunk.as_bytes (Chunk.new t d)) 8 (d.length + 8) = d :=
    slice_append_mid' (u32_to_be_bytes d.length ++ t.bytes) d
      (u32_to_be_bytes (crc32 (t.bytes ++ d))) _ 8 (d.length + 8)
      (by rw [hveq, List.append_assoc]) (by simp)
      (by omega)
  have hstored : slice (Chunk.as_bytes (Chunk.new t d)) (d.length + 8) (d.length + 12) =
      u32_to_be_bytes (crc32 (t.bytes ++ d)) :=
    slice_append_mid' (u32_to_be_bytes d.length ++ (t.bytes ++ d))
      (u32_to_be_bytes (crc32 (t.bytes ++ d))) [] _ (d.length + 8) (d.length + 12)
      (by rw [hveq, List.append_nil, List.append_assoc, List.append_assoc])
      (by simp only [List.length_append, u32_to_be_bytes_length, ChunkType.bytes_length]; omega)
      (by simp only [u32_to_be_bytes_length])
  have hpt : Chunk.parsed_type (Chunk.as_bytes (Chunk.new t d)) = t := by
    unfold Chunk.parsed_type
    rw [h48]
    rfl
  rw [try_from_complete _ d.length hL (by omega), hcrcslice, hstored,
    u32_from_to_be_bytes, Nat.mod_eq_of_lt hKlt, if_neg (by simp), hpt,
    if_neg (by simp [hvalid]), hdata]
  simp [Chunk.new, hmod]

/-- C1 witness: a concrete valid chunk ("RuSt", 3-byte payload) round-trips
to itself. -/
theorem C1_witness :
    Chunk.try_from (Chunk.as_bytes (Chunk.new ⟨82, 117, 83, 116⟩ [1, 2, 3])) =
      .ok (Chunk.new ⟨82, 117, 83, 116⟩ [1, 2, 3]) :=
  C1_roundtrip ⟨82, 117, 83, 116⟩ [1, 2, 3] (by decide) (by decide) (by norm_num)

end PNGCrypt
